import Mathlib

/-!
Verification of the caption-extraction and record pipeline of `src/bot.py`.

Captions, titles and all other texts are modelled as `List Char` (Python
strings are sequences of Unicode code points).  The regex patterns of the
source all have the shape `MARKER\s*([^\n]+)`; `reSearch` below implements
Python `re.search` for exactly that pattern shape: leftmost occurrence of
the literal marker, greedy `\s*` with backtracking, then a greedy run of
one-or-more non-newline characters as the captured group.
-/

namespace Indexer

/-- Python's `\s` / `str.isspace` character class for `str` patterns
(ASCII whitespace, the C1 separators, NEL, NBSP and the Unicode spaces). -/
def pyWs (c : Char) : Bool :=
  c == ' ' || c == '\t' || c == '\n' || c.val == 11 || c.val == 12 || c == '\r' ||
  (28 ≤ c.val && c.val ≤ 31) || c.val == 133 || c.val == 160 ||
  c.val == 0x1680 || (0x2000 ≤ c.val && c.val ≤ 0x200A) ||
  c.val == 0x2028 || c.val == 0x2029 || c.val == 0x202F || c.val == 0x205F ||
  c.val == 0x3000

/-- Python `str.strip()`: remove leading and trailing whitespace. -/
def strip (l : List Char) : List Char :=
  ((l.dropWhile pyWs).reverse.dropWhile pyWs).reverse

/-- The `[^\n]` character class. -/
def notNl (d : Char) : Bool := d != '\n'

/-- Match `\s*([^\n]+)` at the start of `rest`, returning the captured group.
The engine first tries to extend the greedy `\s*` (the recursive call) and
only on failure lets the current whitespace character start the `[^\n]+`
group (the backtracking branch); a non-whitespace character always starts
the group, which greedily runs to the next newline. -/
def matchAfterMarker : List Char → Option (List Char)
  | [] => none
  | c :: cs =>
    if pyWs c then
      match matchAfterMarker cs with
      | some g => some g
      | none => if c == '\n' then none else some ((c :: cs).takeWhile notNl)
    else
      some ((c :: cs).takeWhile notNl)

/-- `re.search(marker + r"\s*([^\n]+)", s)`: try each start position left to
right; at a position the literal marker must match, then `\s*([^\n]+)`;
on failure the scan resumes one character further. Returns group 1. -/
def reSearch (marker : List Char) : List Char → Option (List Char)
  | [] => none
  | c :: cs =>
    if marker.isPrefixOf (c :: cs) then
      match matchAfterMarker ((c :: cs).drop marker.length) with
      | some g => some g
      | none => reSearch marker cs
    else
      reSearch marker cs

/-- The marker occurs as a contiguous substring (Python `marker in text`). -/
def occursIn (M : List Char) : List Char → Bool
  | [] => M.isEmpty
  | c :: cs => M.isPrefixOf (c :: cs) || occursIn M cs

/-- The literal video-title marker of `video_pattern` (bot.py line 84). -/
def videoMarker : List Char :=
  "\uF8FF\u00FC\u00E9\u00FB\u00D4\u220F\u00E8\uF8FF\u00F9\u00EA\u00EC\uF8FF\u00F9\u00EA\u00A2\uF8FF\u00F9\u00EA\u2260\uF8FF\u00F9\u00EA\u2022\uF8FF\u00F9\u00EA\u00FB \u00AC\u00AA".data

/-- The literal PDF-title marker of `pdf_pattern` (bot.py line 86). -/
def pdfMarker : List Char :=
  "\uF8FF\u00FC\u00EC\u00EF\uF8FF\u00F9\u00EA\u00EC\uF8FF\u00F9\u00EA\u00A2\uF8FF\u00F9\u00EA\u2260\uF8FF\u00F9\u00EA\u2022\uF8FF\u00F9\u00EA\u00FB \u00AC\u00AA".data

/-- The literal course marker of `course_pattern` (bot.py line 99). -/
def courseMarker : List Char :=
  "\uF8FF\u00FC\u00EC\u00F6 Course :".data

/-- The literal attribution marker of `extracted_pattern` (bot.py line 105). -/
def extractedByMarker : List Char :=
  "\uF8FF\u00FC\u00E5\u00FC\uF8FF\u00F9\u00EA\u00D1\uF8FF\u00F9\u00EA\u00B1\uF8FF\u00F9\u00EA\u2260\uF8FF\u00F9\u00EA\u00B4\uF8FF\u00F9\u00EA\u00F6\uF8FF\u00F9\u00EA\u00FA\uF8FF\u00F9\u00EA\u2260\uF8FF\u00F9\u00EA\u00FB\uF8FF\u00F9\u00EA\u00F9 \uF8FF\u00F9\u00EA\u00C5\uF8FF\u00F9\u00EA\u2264 \u00AC\u00AA".data

/-- `ChannelMonitor.extract_title` (bot.py lines 81–95): the video pattern is
checked first and wins; the PDF pattern is the fallback; `None` otherwise.
The captured group is stripped. -/
def extract_title (caption : List Char) : Option (List Char) :=
  match reSearch videoMarker caption with
  | some g => some (strip g)
  | none =>
    match reSearch pdfMarker caption with
    | some g => some (strip g)
    | none => none

/-- `ChannelMonitor.extract_course` (bot.py lines 97–101). -/
def extract_course (caption : List Char) : List Char :=
  match reSearch courseMarker caption with
  | some g => strip g
  | none => "Unknown".data

/-- `ChannelMonitor.extract_extracted_by` (bot.py lines 103–107). -/
def extract_extracted_by (caption : List Char) : List Char :=
  match reSearch extractedByMarker caption with
  | some g => strip g
  | none => "Unknown".data

/-- An incoming Telegram message, reduced to the fields
`process_channel_message` reads: `message.id`, `message.video`
(`Some file_id` when a video payload is attached), `message.document`
likewise, and the optional `message.caption`. -/
structure PyMessage where
  id : Int
  video : Option (List Char)
  document : Option (List Char)
  caption : Option (List Char)
  deriving DecidableEq, Repr

/-- The argument tuple of `store_media_data` — the data of one insert. -/
structure InsertRow where
  message_id : Int
  file_type : List Char
  title : List Char
  course : List Char
  extracted_by : List Char
  file_id : List Char
  deriving DecidableEq, Repr

/-- `ChannelMonitor.process_channel_message` (bot.py lines 53–79), with the
store write reified as the returned row: `some row` means exactly one
`store_media_data` call with those arguments, `none` means no write.
Python's `if title:` rejects both `None` and the empty string. -/
def process_channel_message (m : PyMessage) : Option InsertRow :=
  if m.video.isSome || m.document.isSome then
    match extract_title (m.caption.getD []) with
    | some t =>
      if t = [] then none
      else
        some { message_id := m.id
               file_type := if m.video.isSome then "video".data else "pdf".data
               title := t
               course := extract_course (m.caption.getD [])
               extracted_by := extract_extracted_by (m.caption.getD [])
               file_id := (if m.video.isSome then m.video else m.document).getD [] }
    | none => none
  else
    none

/-- One row of the `media_files` table (bot.py lines 23–34): `id` is the
auto-increment primary key, `timestamp` the insertion-time `CURRENT_TIMESTAMP`
(second-resolution, modelled as a `Nat`, so ties are possible). -/
structure MediaFile where
  id : Nat
  message_id : Int
  file_type : List Char
  title : List Char
  course : List Char
  extracted_by : List Char
  file_id : List Char
  timestamp : Nat
  deriving DecidableEq, Repr

/-- The next value of the `AUTOINCREMENT` key: one past the largest id. -/
def nextId (db : List MediaFile) : Nat :=
  db.foldr (fun r acc => max r.id acc) 0 + 1

/-- `ChannelMonitor.store_media_data` (bot.py lines 109–121): a plain
`INSERT` — the new row is appended with a fresh id and the current time;
no uniqueness constraint on `message_id` exists in the schema. -/
def store_media_data (db : List MediaFile) (r : InsertRow) (now : Nat) :
    List MediaFile :=
  db ++ [{ id := nextId db
           message_id := r.message_id
           file_type := r.file_type
           title := r.title
           course := r.course
           extracted_by := r.extracted_by
           file_id := r.file_id
           timestamp := now }]

/-- `out` is sorted by `timestamp` descending (non-strictly). -/
def tsSortedDesc : List MediaFile → Bool
  | [] => true
  | [_] => true
  | a :: b :: rest => (b.timestamp ≤ a.timestamp) && tsSortedDesc (b :: rest)

/-- The `WHERE file_type = ?` filter of `get_media_files`; `none` is the
unfiltered query. -/
def rowMatches (ft : Option (List Char)) (r : MediaFile) : Bool :=
  match ft with
  | some t => r.file_type == t
  | none => true

/-- `TelegramBot.get_media_files` (bot.py lines 159–179).  The SQL is
`SELECT * ... [WHERE file_type = ?] ORDER BY timestamp DESC`: the only
ordering the statement fixes is `timestamp` descending — SQLite leaves the
relative order of rows with equal sort keys unspecified — so the query is
modelled as the predicate "`out` is a possible result": a permutation of
the (filtered) table that is sorted by timestamp descending. -/
def get_media_files_spec (db : List MediaFile) (ft : Option (List Char))
    (out : List MediaFile) : Bool :=
  (db.filter (rowMatches ft)).isPerm out && tsSortedDesc out

/-! ### Summary renderer (bot.py lines 181–289)

`post_summary`, `get_videos` and `get_pdfs` are modelled as pure functions
from the list of rows the query returned to the text the bot sends; the
authorization check and the transport sends around them are out of scope.
The non-ASCII constants below are the exact code points stored in the
source file. -/

/-- `f[2] == "video"` — the file-type test used by the renderer. -/
def isVideoRow (f : MediaFile) : Bool := f.file_type == "video".data

/-- `f[2] == "pdf"`. -/
def isPdfRow (f : MediaFile) : Bool := f.file_type == "pdf".data

/-- One step of the `organized_data` dict build (bot.py lines 195–200):
Python dicts preserve insertion order, so a new course is appended at the
end and an existing course has the file appended to its list. -/
def addToCourse (acc : List (List Char × List MediaFile)) (f : MediaFile) :
    List (List Char × List MediaFile) :=
  if acc.any (fun p => p.1 == f.course) then
    acc.map (fun p => if p.1 == f.course then (p.1, p.2 ++ [f]) else p)
  else
    acc ++ [(f.course, [f])]

/-- The `organized_data` dict of `post_summary`, as an insertion-ordered
association list. -/
def organize_by_course (files : List MediaFile) :
    List (List Char × List MediaFile) :=
  files.foldl addToCourse []

/-- The bullet glyphs of the link lines (the source's literal bytes). -/
def bulletChars : List Char := "\u201A\u00C4\u00A2".data

/-- One `[{title}](https://t.me/{CHANNEL_USERNAME}/{message_id})` line. -/
def entry_line (channel : List Char) (f : MediaFile) : List Char :=
  bulletChars ++ " [".data ++ f.title ++ "](https://t.me/".data ++ channel ++
    "/".data ++ (toString f.message_id).data ++ ")\n".data

/-- The `summary_text` opening line (bot.py line 203). -/
def summaryHeader : List Char :=
  "\uF8FF\u00FC\u00EC\u00F6 **Course Materials Summary**\n\n".data

/-- The per-course Videos sub-header (bot.py line 212). -/
def videosSubHeader : List Char := "\uF8FF\u00FC\u00E9\u2022 **Videos:**\n".data

/-- The per-course PDFs sub-header (bot.py line 219). -/
def pdfsSubHeader : List Char := "\uF8FF\u00FC\u00EC\u00D1 **PDFs:**\n".data

/-- The `videos[:5]` entry lines of one course block. -/
def course_video_entries (channel : List Char) (files : List MediaFile) :
    List (List Char) :=
  ((files.filter isVideoRow).take 5).map (entry_line channel)

/-- The `pdfs[:5]` entry lines of one course block. -/
def course_pdf_entries (channel : List Char) (files : List MediaFile) :
    List (List Char) :=
  ((files.filter isPdfRow).take 5).map (entry_line channel)

/-- The `if videos:` part of a course block (bot.py lines 211–216). -/
def video_section (channel : List Char) (files : List MediaFile) : List Char :=
  if (files.filter isVideoRow).isEmpty then []
  else videosSubHeader ++ (course_video_entries channel files).flatten

/-- The `if pdfs:` part of a course block (bot.py lines 218–223). -/
def pdf_section (channel : List Char) (files : List MediaFile) : List Char :=
  if (files.filter isPdfRow).isEmpty then []
  else pdfsSubHeader ++ (course_pdf_entries channel files).flatten

/-- One course block of `summary_text` (bot.py lines 205–225). -/
def course_section (channel course : List Char) (files : List MediaFile) :
    List Char :=
  "**".data ++ course ++ "**\n".data ++
    video_section channel files ++ pdf_section channel files ++ "\n".data

/-- The full `summary_text` built by `post_summary` on a non-empty result. -/
def summary_text (channel : List Char) (files : List MediaFile) : List Char :=
  summaryHeader ++
    ((organize_by_course files).map
      (fun p => course_section channel p.1 p.2)).flatten

/-- The fixed empty-store reply of `post_summary` (bot.py line 191). -/
def noMediaText : List Char := "No media files found in database.".data

/-- The fixed empty reply of `get_videos` (bot.py line 248). -/
def noVideosText : List Char := "No videos found in database.".data

/-- The fixed empty reply of `get_pdfs` (bot.py line 274). -/
def noPdfsText : List Char := "No PDFs found in database.".data

/-- `post_summary` as a function of the fetched rows: the fixed no-media
text on an empty result, the grouped summary otherwise. -/
def post_summary_message (channel : List Char) (files : List MediaFile) :
    List Char :=
  if files.isEmpty then noMediaText else summary_text channel files

/-- The `get_videos` response header (bot.py line 251). -/
def allVideosHeader : List Char :=
  "\uF8FF\u00FC\u00E9\u2022 **All Videos**\n\n".data

/-- The `get_pdfs` response header (bot.py line 277). -/
def allPdfsHeader : List Char :=
  "\uF8FF\u00FC\u00EC\u00D1 **All PDFs**\n\n".data

/-- `get_videos` as a function of the rows returned by
`get_media_files("video")`: each entry line is followed by its course
line; no 5-item cap. -/
def get_videos_message (channel : List Char) (videos : List MediaFile) :
    List Char :=
  if videos.isEmpty then noVideosText
  else
    allVideosHeader ++
      (videos.map (fun v =>
        entry_line channel v ++ "  Course: ".data ++ v.course ++
          "\n\n".data)).flatten

/-- `get_pdfs` as a function of the rows returned by
`get_media_files("pdf")`. -/
def get_pdfs_message (channel : List Char) (pdfs : List MediaFile) :
    List Char :=
  if pdfs.isEmpty then noPdfsText
  else
    allPdfsHeader ++
      (pdfs.map (fun v =>
        entry_line channel v ++ "  Course: ".data ++ v.course ++
          "\n\n".data)).flatten

/-- The spec's description of the grouping order, for comparison with
`organize_by_course`: the order in which course values are first
encountered while scanning the record sequence. -/
def firstSeenOrder (l : List (List Char)) : List (List Char) :=
  l.foldl (fun acc c => if c ∈ acc then acc else acc ++ [c]) []

/-- The ordering the spec asserts for retrievals: `createdAt` descending
with ties broken by `id` descending (strict lexicographic). -/
def tsIdSortedDesc : List MediaFile → Bool
  | [] => true
  | [_] => true
  | a :: b :: rest =>
    ((b.timestamp < a.timestamp) ||
      (b.timestamp == a.timestamp && b.id < a.id)) && tsIdSortedDesc (b :: rest)

/-! ### Concrete data used by witnesses and counterexamples -/

/-- A video message whose caption is the video marker plus `" A"`. -/
def exMsg3 : PyMessage :=
  { id := 42, video := some ("f1".data), document := none
    caption := some (videoMarker ++ " A".data) }

/-- The row `process_channel_message exMsg3` hands to the store. -/
def exRow3 : InsertRow :=
  { message_id := 42, file_type := "video".data, title := "A".data
    course := "Unknown".data, extracted_by := "Unknown".data
    file_id := "f1".data }

/-- Two video rows in the same course with equal timestamps. -/
def exR1 : MediaFile :=
  ⟨1, 100, "video".data, "A".data, "C1".data, "u".data, "f1".data, 50⟩

/-- Second row: larger id, same timestamp as `exR1`. -/
def exR2 : MediaFile :=
  ⟨2, 101, "video".data, "B".data, "C1".data, "u".data, "f2".data, 50⟩

/-- A pdf row used for the empty-kind witness. -/
def exPdfRow : MediaFile :=
  ⟨3, 102, "pdf".data, "D".data, "C1".data, "u".data, "f3".data, 49⟩

/-- Six videos and six pdfs, all in course `"C"`. -/
def exDb6 : List MediaFile :=
  (List.range 6).map (fun i =>
    ⟨i + 1, Int.ofNat (100 + i), "video".data, "T".data, "C".data,
      "u".data, "f".data, 9⟩) ++
  (List.range 6).map (fun i =>
    ⟨i + 7, Int.ofNat (200 + i), "pdf".data, "T".data, "C".data,
      "u".data, "f".data, 9⟩)

/-- The spec's example caption, exactly as the claim writes it (plain
`Title »`, `Course :`, `Extracted By »` — without the marker glyph
sequences the code's patterns require). -/
def claimCaption9 : List Char :=
  "Title » Intro to Graphs\nCourse : CS201\nExtracted By » alice".data

/-- The claim's caption rebuilt with the code's actual marker strings. -/
def amendedCaption9 : List Char :=
  videoMarker ++ " Intro to Graphs\n".data ++
    courseMarker ++ " CS201\n".data ++
    extractedByMarker ++ " alice".data

/-- A caption whose video marker is followed by a whitespace-only remainder
on its own line, with content on the following line. -/
def cap10 : List Char := videoMarker ++ '\n' :: "Foo".data

/-- A caption containing both title markers with content after each. -/
def capBoth : List Char :=
  videoMarker ++ "V1\n".data ++ pdfMarker ++ "P1".data

/-! ### Helper lemmas about the pattern-matching embedding -/

theorem isPrefixOf_append_self (M r : List Char) :
    M.isPrefixOf (M ++ r) = true := by
  induction M with
  | nil => simp [List.isPrefixOf]
  | cons c cs ih => simp [List.isPrefixOf, ih]

theorem isPrefixOf_take_of_append :
    ∀ (a : List Char) {M b : List Char}, M.isPrefixOf (a ++ b) = true →
      (M.take a.length).isPrefixOf a = true := by
  intro a
  induction a with
  | nil => intro M b _; rfl
  | cons x xs ih =>
    intro M b h
    cases M with
    | nil => rfl
    | cons m ms =>
      simp only [List.cons_append, List.isPrefixOf, Bool.and_eq_true] at h
      simpa [List.isPrefixOf, h.1] using ih h.2

theorem not_isPrefixOf_of_allWs {c : Char} {cs t : List Char}
    (ht : ∀ d ∈ t, pyWs d = true) (hc : pyWs c = false) :
    (c :: cs).isPrefixOf t = false := by
  cases t with
  | nil => rfl
  | cons d ds =>
    have hd : pyWs d = true := ht d (List.mem_cons_self d ds)
    have hne : (c == d) = false := by
      rcases Bool.eq_false_or_eq_true (c == d) with h | h
      · exact absurd (beq_iff_eq.mp h ▸ hd) (by simp [hc])
      · exact h
    simp [List.isPrefixOf, hne]

theorem noOcc_of_occursIn_false {M : List Char} :
    ∀ {s : List Char}, occursIn M s = false →
      ∀ p, M.isPrefixOf (s.drop p) = false := by
  intro s
  induction s with
  | nil =>
    intro h p
    simp only [occursIn, List.isEmpty_iff] at h
    cases M with
    | nil => simp at h
    | cons c cs => simp [List.drop_nil, List.isPrefixOf]
  | cons c cs ih =>
    intro h p
    simp only [occursIn, Bool.or_eq_false_iff] at h
    cases p with
    | zero => exact h.1
    | succ n => exact ih h.2 n

theorem reSearch_eq_none {M : List Char} :
    ∀ {s : List Char}, (∀ p, M.isPrefixOf (s.drop p) = false) →
      reSearch M s = none := by
  intro s
  induction s with
  | nil => intro _; rfl
  | cons c cs ih =>
    intro h
    have h0 : M.isPrefixOf (c :: cs) = false := h 0
    simp only [reSearch, h0, Bool.false_eq_true, if_false]
    exact ih (fun p => h (p + 1))

theorem reSearch_first_occurrence {M rest g : List Char}
    (hM : M ≠ []) (hg : matchAfterMarker rest = some g) :
    ∀ (p : List Char),
      (∀ j, j < p.length → M.isPrefixOf ((p ++ (M ++ rest)).drop j) = false) →
      reSearch M (p ++ (M ++ rest)) = some g := by
  intro p
  induction p with
  | nil =>
    intro _
    cases M with
    | nil => exact absurd rfl hM
    | cons m ms =>
      simp only [List.nil_append, List.cons_append]
      rw [reSearch]
      rw [show ((m :: (ms ++ rest)).drop (m :: ms).length)
            = rest by
        simpa using List.drop_left (m :: ms) rest]
      rw [show (m :: ms).isPrefixOf (m :: (ms ++ rest)) = true by
        simpa using isPrefixOf_append_self (m :: ms) rest]
      simp [hg]
  | cons c p' ih =>
    intro h
    have h0 : M.isPrefixOf (c :: (p' ++ (M ++ rest))) = false := by
      simpa using h 0 (Nat.succ_pos _)
    simp only [List.cons_append]
    rw [reSearch, h0]
    simp only [Bool.false_eq_true, if_false]
    exact ih (fun j hj => by simpa using h (j + 1) (Nat.succ_lt_succ hj))

theorem matchAfterMarker_allWs :
    ∀ {ws g : List Char}, (∀ c ∈ ws, pyWs c = true) →
      matchAfterMarker ws = some g → ∀ c ∈ g, pyWs c = true := by
  intro ws
  induction ws with
  | nil => intro g _ h; simp [matchAfterMarker] at h
  | cons c cs ih =>
    intro g hws h
    have hc : pyWs c = true := hws c (List.mem_cons_self c cs)
    rw [matchAfterMarker, if_pos hc] at h
    rcases hrec : matchAfterMarker cs with _ | g'
    · rw [hrec] at h
      rcases hnl : (c == '\n') with _ | _
      · rw [if_neg (by simp [hnl])] at h
        have hg : g = (c :: cs).takeWhile notNl := by
          exact (Option.some_inj.mp h.symm)
        intro d hd
        rw [hg] at hd
        exact hws d ((List.takeWhile_sublist notNl).mem hd)
      · rw [if_pos (by simp [hnl])] at h
        exact absurd h (by simp)
    · rw [hrec] at h
      have hg : g = g' := Option.some_inj.mp h.symm
      intro d hd
      exact ih (fun x hx => hws x (List.mem_cons_of_mem c hx)) hrec d (hg ▸ hd)

theorem exists_notWs_dropWhile :
    ∀ {l : List Char}, (∃ c ∈ l, pyWs c = false) →
      ∃ c ∈ l.dropWhile pyWs, pyWs c = false := by
  intro l
  induction l with
  | nil => intro h; simpa using h
  | cons c cs ih =>
    intro h
    rcases hw : pyWs c with _ | _
    · exact ⟨c, by simp [List.dropWhile, hw], hw⟩
    · rw [show (c :: cs).dropWhile pyWs = cs.dropWhile pyWs by
        simp [List.dropWhile, hw]]
      apply ih
      rcases h with ⟨d, hd, hdw⟩
      rcases List.mem_cons.mp hd with rfl | hd'
      · exact absurd hw (by simp [hdw])
      · exact ⟨d, hd', hdw⟩

theorem strip_allWs {l : List Char} (h : ∀ c ∈ l, pyWs c = true) :
    strip l = [] := by
  have h1 : l.dropWhile pyWs = [] := List.dropWhile_eq_nil_iff.mpr h
  simp [strip, h1]

theorem strip_cons_ws {c : Char} {l : List Char} (h : pyWs c = true) :
    strip (c :: l) = strip l := by
  simp [strip, List.dropWhile, h]

theorem strip_ne_nil {l : List Char} (h : ∃ c ∈ l, pyWs c = false) :
    strip l ≠ [] := by
  have h1 := exists_notWs_dropWhile h
  have h2 : ∃ c ∈ (l.dropWhile pyWs).reverse, pyWs c = false := by
    rcases h1 with ⟨c, hc, hcw⟩
    exact ⟨c, List.mem_reverse.mpr hc, hcw⟩
  have h3 := exists_notWs_dropWhile h2
  rcases h3 with ⟨c, hc, _⟩
  have hne : ((l.dropWhile pyWs).reverse.dropWhile pyWs) ≠ [] :=
    List.ne_nil_of_mem hc
  intro hh
  simp only [strip, List.reverse_eq_nil_iff] at hh
  exact hne hh

theorem matchAfterMarker_of_content :
    ∀ {rest : List Char}, (∃ c ∈ rest.takeWhile notNl, pyWs c = false) →
      matchAfterMarker rest = some ((rest.dropWhile pyWs).takeWhile notNl) := by
  intro rest
  induction rest with
  | nil => intro h; simpa using h
  | cons r rs ih =>
    intro h
    rcases hw : pyWs r with _ | _
    · rw [matchAfterMarker, if_neg (by simp [hw])]
      rw [show (r :: rs).dropWhile pyWs = r :: rs by simp [List.dropWhile, hw]]
    · have hr : notNl r = true := by
        rcases hnl : notNl r with _ | _
        · exfalso
          have : (r :: rs).takeWhile notNl = [] := by
            simp [List.takeWhile, hnl]
          rw [this] at h
          simpa using h
        · rfl
      have htk : (r :: rs).takeWhile notNl = r :: rs.takeWhile notNl := by
        simp [List.takeWhile, hr]
      have h' : ∃ c ∈ rs.takeWhile notNl, pyWs c = false := by
        rcases h with ⟨d, hd, hdw⟩
        rw [htk] at hd
        rcases List.mem_cons.mp hd with rfl | hd'
        · exact absurd hw (by simp [hdw])
        · exact ⟨d, hd', hdw⟩
      rw [matchAfterMarker, if_pos hw, ih h']
      rw [show (r :: rs).dropWhile pyWs = rs.dropWhile pyWs by
        simp [List.dropWhile, hw]]

theorem strip_line_shift :
    ∀ {rest : List Char}, (∃ c ∈ rest.takeWhile notNl, pyWs c = false) →
      strip ((rest.dropWhile pyWs).takeWhile notNl) =
        strip (rest.takeWhile notNl) := by
  intro rest
  induction rest with
  | nil => intro h; simpa using h
  | cons r rs ih =>
    intro h
    rcases hw : pyWs r with _ | _
    · rw [show (r :: rs).dropWhile pyWs = r :: rs by simp [List.dropWhile, hw]]
    · have hr : notNl r = true := by
        rcases hnl : notNl r with _ | _
        · exfalso
          have : (r :: rs).takeWhile notNl = [] := by
            simp [List.takeWhile, hnl]
          rw [this] at h
          simpa using h
        · rfl
      have htk : (r :: rs).takeWhile notNl = r :: rs.takeWhile notNl := by
        simp [List.takeWhile, hr]
      have h' : ∃ c ∈ rs.takeWhile notNl, pyWs c = false := by
        rcases h with ⟨d, hd, hdw⟩
        rw [htk] at hd
        rcases List.mem_cons.mp hd with rfl | hd'
        · exact absurd hw (by simp [hdw])
        · exact ⟨d, hd', hdw⟩
      rw [show (r :: rs).dropWhile pyWs = rs.dropWhile pyWs by
            simp [List.dropWhile, hw], ih h', htk, strip_cons_ws hw]

theorem reSearch_self_append {M ws : List Char} (hM : M ≠ []) :
    reSearch M (M ++ ws) =
      match matchAfterMarker ws with
      | some g => some g
      | none => reSearch M (M.tail ++ ws) := by
  cases M with
  | nil => exact absurd rfl hM
  | cons c cs =>
    simp only [List.cons_append, reSearch, List.tail_cons, List.append_eq]
    rw [show (c :: cs).isPrefixOf (c :: (cs ++ ws)) = true from by
      simpa using isPrefixOf_append_self (c :: cs) ws]
    rw [show ((c :: (cs ++ ws)).drop (c :: cs).length) = ws from by
      simpa using List.drop_left (c :: cs) ws]
    simp

theorem reSearch_none_of_take_facts {M a ws : List Char} (c : Char)
    (hM : M = c :: M.tail) (hc : pyWs c = false)
    (hws : ∀ d ∈ ws, pyWs d = true)
    (hfacts : ∀ p, p < a.length →
      (M.take ((a.drop p).length)).isPrefixOf (a.drop p) = false) :
    reSearch M (a ++ ws) = none := by
  apply reSearch_eq_none
  intro p
  rcases Nat.lt_or_ge p a.length with hp | hp
  · rw [List.drop_append_eq_append_drop, Nat.sub_eq_zero_of_le (le_of_lt hp),
      List.drop_zero]
    rcases hb : M.isPrefixOf (a.drop p ++ ws) with _ | _
    · rfl
    · have h2 := isPrefixOf_take_of_append (a.drop p) hb
      rw [hfacts p hp] at h2
      exact absurd h2 (by simp)
  · rw [List.drop_append_eq_append_drop, List.drop_eq_nil_of_le hp,
      List.nil_append]
    have hall : ∀ d ∈ ws.drop (p - a.length), pyWs d = true :=
      fun d hd => hws d (List.mem_of_mem_drop hd)
    rw [hM]
    exact not_isPrefixOf_of_allWs hall hc

theorem pdf_take_facts_video :
    ∀ p, p < videoMarker.length →
      (pdfMarker.take ((videoMarker.drop p).length)).isPrefixOf
        (videoMarker.drop p) = false := by decide

theorem video_take_facts_tail :
    ∀ p, p < videoMarker.tail.length →
      (videoMarker.take ((videoMarker.tail.drop p).length)).isPrefixOf
        (videoMarker.tail.drop p) = false := by decide

/-- Searching the video pattern in `videoMarker ++ ws` for whitespace-only
`ws`: the match at position zero either captures a whitespace-only group or
fails, and no later position can match. -/
theorem reSearch_video_marker_ws {ws : List Char}
    (hws : ∀ d ∈ ws, pyWs d = true) :
    reSearch videoMarker (videoMarker ++ ws) =
      match matchAfterMarker ws with
      | some g => some g
      | none => none := by
  rw [reSearch_self_append (by decide : videoMarker ≠ [])]
  rcases hmm : matchAfterMarker ws with _ | g
  · simp only []
    exact reSearch_none_of_take_facts '\uF8FF' (by decide) (by decide) hws
      video_take_facts_tail
  · rfl

theorem reSearch_pdf_marker_ws {ws : List Char}
    (hws : ∀ d ∈ ws, pyWs d = true) :
    reSearch pdfMarker (videoMarker ++ ws) = none :=
  reSearch_none_of_take_facts '\uF8FF' (by decide) (by decide) hws
    pdf_take_facts_video

/-! ### Facts about the pipeline used by several claims -/

theorem process_row_message_id (m : PyMessage) (row : InsertRow)
    (h : process_channel_message m = some row) :
    row.message_id = m.id := by
  unfold process_channel_message at h
  split at h
  · split at h
    · split at h
      · exact absurd h (by simp)
      · rw [← Option.some_inj.mp h]
    · exact absurd h (by simp)
  · exact absurd h (by simp)

theorem foldr_max_init_le (db : List MediaFile) (b : Nat) :
    b ≤ db.foldr (fun r acc => max r.id acc) b := by
  induction db with
  | nil => exact le_refl b
  | cons r rs ih => exact le_trans ih (le_max_right _ _)

theorem nextId_append_gt (db : List MediaFile) (x : MediaFile) :
    x.id < nextId (db ++ [x]) := by
  unfold nextId
  rw [List.foldr_append]
  simp only [List.foldr_cons, List.foldr_nil]
  exact Nat.lt_succ_of_le (le_trans (le_max_left _ _) (foldr_max_init_le db _))

/-! ### Claim theorems -/

/-- C1: for every incoming message carrying a video or document payload a
record is inserted iff title extraction on the caption (empty string when
the caption is absent) yields a non-empty title; a caption matching no
title pattern gives no record (`process_channel_message` is total, so no
error either), and a message with neither payload is ignored — the
right-hand side is false whenever both payload fields are `none`. -/
theorem record_iff_title_extracted (m : PyMessage) :
    (process_channel_message m).isSome = true ↔
      ((m.video.isSome || m.document.isSome) = true ∧
        ∃ t, extract_title (m.caption.getD []) = some t ∧ t ≠ []) := by
  unfold process_channel_message
  rcases hp : (m.video.isSome || m.document.isSome) with _ | _
  · simp [hp]
  · simp only [hp, if_true]
    rcases ht : extract_title (m.caption.getD []) with _ | t
    · simp
    · by_cases he : t = []
      · subst he; simp
      · simp [he]

/-- C3: ingestion is not idempotent — processing the same qualifying
message twice and inserting both rows leaves two distinct records (their
auto-increment ids differ) that both carry the message's id, title and
payload reference; no deduplication key exists on the insert path. -/
theorem ingestion_not_idempotent (db : List MediaFile) (m : PyMessage)
    (row : InsertRow) (t1 t2 : Nat)
    (h : process_channel_message m = some row) :
    (store_media_data (store_media_data db row t1) row t2).length =
      db.length + 2 ∧
    ∃ r1 r2 : MediaFile,
      r1 ∈ store_media_data (store_media_data db row t1) row t2 ∧
      r2 ∈ store_media_data (store_media_data db row t1) row t2 ∧
      r1.id ≠ r2.id ∧ r1.message_id = m.id ∧ r2.message_id = m.id ∧
      r1.title = row.title ∧ r2.title = row.title ∧
      r1.file_id = row.file_id ∧ r2.file_id = row.file_id := by
  have hmid : row.message_id = m.id := process_row_message_id m row h
  constructor
  · simp [store_media_data]
  · refine ⟨{ id := nextId db, message_id := row.message_id
              file_type := row.file_type, title := row.title
              course := row.course, extracted_by := row.extracted_by
              file_id := row.file_id, timestamp := t1 },
            { id := nextId (store_media_data db row t1)
              message_id := row.message_id
              file_type := row.file_type, title := row.title
              course := row.course, extracted_by := row.extracted_by
              file_id := row.file_id, timestamp := t2 },
            ?_, ?_, ?_, hmid, hmid, rfl, rfl, rfl, rfl⟩
    · show _ ∈ store_media_data db row t1 ++ _
      exact List.mem_append_left _ (by
        show _ ∈ db ++ [_]
        exact List.mem_append_right _ (List.mem_singleton.mpr rfl))
    · exact List.mem_append_right _ (List.mem_singleton.mpr rfl)
    · have hlt : nextId db < nextId (store_media_data db row t1) := by
        have := nextId_append_gt db
          { id := nextId db, message_id := row.message_id
            file_type := row.file_type, title := row.title
            course := row.course, extracted_by := row.extracted_by
            file_id := row.file_id, timestamp := t1 }
        simpa [store_media_data] using this
      exact Nat.ne_of_lt hlt

set_option maxRecDepth 20000 in
/-- Witness for C3: processing the concrete video message `exMsg3` yields
`exRow3`, and inserting it twice into the empty store leaves two distinct
records for message 42. -/
theorem ingestion_not_idempotent_witness :
    (store_media_data (store_media_data [] exRow3 5) exRow3 6).length =
      ([] : List MediaFile).length + 2 ∧
    ∃ r1 r2 : MediaFile,
      r1 ∈ store_media_data (store_media_data [] exRow3 5) exRow3 6 ∧
      r2 ∈ store_media_data (store_media_data [] exRow3 5) exRow3 6 ∧
      r1.id ≠ r2.id ∧ r1.message_id = exMsg3.id ∧ r2.message_id = exMsg3.id ∧
      r1.title = exRow3.title ∧ r2.title = exRow3.title ∧
      r1.file_id = exRow3.file_id ∧ r2.file_id = exRow3.file_id :=
  ingestion_not_idempotent [] exMsg3 exRow3 5 6 (by decide)

set_option maxRecDepth 20000 in
/-- C10 counterexample: in `cap10` the video marker is followed only by
(zero) whitespace up to the end of its line, yet the extracted title does
not strip to empty — the pattern's `\s*` crosses the newline and takes
`"Foo"` from the next line — and a record IS inserted. -/
theorem ws_line_counterexample :
    extract_title cap10 = some ("Foo".data) ∧
    process_channel_message
      { id := 9, video := some ("f".data), document := none
        caption := some cap10 } =
    some { message_id := 9, file_type := "video".data, title := "Foo".data
           course := "Unknown".data, extracted_by := "Unknown".data
           file_id := "f".data } := by decide

/-- C10 amended: every stored record has a non-empty title (the
truthiness check rejects `None` and the empty string), and a video-title
marker followed only by whitespace up to the end of the whole caption —
not merely of its own line — yields no record: the match either fails or
captures a whitespace-only group that strips to empty. -/
theorem stored_title_nonempty :
    (∀ m row, process_channel_message m = some row → row.title ≠ []) ∧
    (∀ (mid : Int) (fid ws : List Char), (∀ d ∈ ws, pyWs d = true) →
      process_channel_message
        { id := mid, video := some fid, document := none
          caption := some (videoMarker ++ ws) } = none) := by
  constructor
  · intro m row h
    unfold process_channel_message at h
    split at h
    · split at h
      · split at h
        · exact absurd h (by simp)
        · rename_i hne
          rw [← Option.some_inj.mp h]
          exact hne
      · exact absurd h (by simp)
    · exact absurd h (by simp)
  · intro mid fid ws hws
    have hT : extract_title (videoMarker ++ ws) = none ∨
        extract_title (videoMarker ++ ws) = some [] := by
      unfold extract_title
      rw [reSearch_video_marker_ws hws]
      rcases hmm : matchAfterMarker ws with _ | g
      · rw [reSearch_pdf_marker_ws hws]
        exact Or.inl rfl
      · have hg : strip g = [] := strip_allWs (matchAfterMarker_allWs hws hmm)
        exact Or.inr (by simp [hg])
    unfold process_channel_message
    rcases hT with h | h <;> simp [h]

/-- Witness for C10: the record of `exMsg3` has a non-empty title, and the
all-whitespace-tail caption `videoMarker ++ " \n"` stores nothing. -/
theorem stored_title_nonempty_witness :
    exRow3.title ≠ [] ∧
    process_channel_message
      { id := 1, video := some ("f".data), document := none
        caption := some (videoMarker ++ " \n".data) } = none :=
  ⟨stored_title_nonempty.1 exMsg3 exRow3 (by decide),
   stored_title_nonempty.2 1 ("f".data) (" \n".data) (by decide)⟩

/-- C4 counterexample: the caption consisting of exactly the video marker
contains the video marker and not the pdf marker, yet extraction yields no
title at all (nothing follows the marker), refuting the unconditional
"extraction yields … a title" claim. -/
theorem video_marker_alone_counterexample :
    occursIn videoMarker videoMarker = true ∧
    occursIn pdfMarker videoMarker = false ∧
    extract_title videoMarker = none := by decide

/-- C4 amended: (1) when the first occurrence of the video marker is
followed, before the next newline, by some non-whitespace character,
extraction yields exactly the trimmed remainder of the marker's line (up
to the first newline), which is non-empty — regardless of any pdf marker;
(2) whenever both title patterns match, the video pattern wins; (3) the
stored kind comes from the payload: a message with a video payload always
stores file type `"video"`, whatever the caption says. -/
theorem video_title_extraction :
    (∀ p rest : List Char,
      (∀ j, j < p.length →
        videoMarker.isPrefixOf ((p ++ (videoMarker ++ rest)).drop j) = false) →
      (∃ c ∈ rest.takeWhile notNl, pyWs c = false) →
      extract_title (p ++ (videoMarker ++ rest)) =
        some (strip (rest.takeWhile notNl)) ∧
      strip (rest.takeWhile notNl) ≠ []) ∧
    (∀ caption g g', reSearch videoMarker caption = some g →
      reSearch pdfMarker caption = some g' →
      extract_title caption = some (strip g)) ∧
    (∀ m row, m.video.isSome = true → process_channel_message m = some row →
      row.file_type = "video".data) := by
  refine ⟨?_, ?_, ?_⟩
  · intro p rest hfirst hcontent
    have hsearch : reSearch videoMarker (p ++ (videoMarker ++ rest)) =
        some ((rest.dropWhile pyWs).takeWhile notNl) :=
      reSearch_first_occurrence (by decide)
        (matchAfterMarker_of_content hcontent) p hfirst
    refine ⟨?_, strip_ne_nil hcontent⟩
    unfold extract_title
    rw [hsearch]
    exact congrArg some (strip_line_shift hcontent)
  · intro caption g g' hv _hp
    unfold extract_title
    rw [hv]
  · intro m row hvid h
    unfold process_channel_message at h
    split at h
    · split at h
      · split at h
        · exact absurd h (by simp)
        · rw [← Option.some_inj.mp h]
      · exact absurd h (by simp)
    · exact absurd h (by simp)

set_option maxRecDepth 20000 in
/-- Witness for C4 at concrete captions: a caption that is the video
marker followed by `"V1"`, the two-marker caption `capBoth`, and the video
message `exMsg3`. -/
theorem video_title_extraction_witness :
    (extract_title (([] : List Char) ++ (videoMarker ++ "V1".data)) =
        some (strip ("V1".data.takeWhile notNl)) ∧
      strip ("V1".data.takeWhile notNl) ≠ []) ∧
    extract_title capBoth = some (strip ("V1".data)) ∧
    exRow3.file_type = "video".data :=
  ⟨video_title_extraction.1 [] ("V1".data)
      (fun j hj => absurd hj (Nat.not_lt_zero j)) (by decide),
   video_title_extraction.2.1 capBoth ("V1".data) ("P1".data)
      (by decide) (by decide),
   video_title_extraction.2.2 exMsg3 exRow3 (by decide) (by decide)⟩

/-- C2 counterexample: in the caption `courseMarker ++ "  "` the course
marker is present, yet the extractor returns the EMPTY string (the
pattern's backtracking captures the final space, which strips to empty) —
neither `"Unknown"` nor a non-empty remainder-of-line value. -/
theorem course_empty_counterexample :
    occursIn courseMarker (courseMarker ++ [' ', ' ']) = true ∧
    extract_course (courseMarker ++ [' ', ' ']) = [] := by decide

/-- C2 amended: `extract_course` and `extract_extracted_by` always return
a string (never null): `"Unknown"` whenever the marker is absent from the
caption, and the trimmed remainder of the marker's line when the first
occurrence of the marker is followed by a non-whitespace character before
the next newline — in that case the value is non-empty.  (When the marker
is present but followed only by whitespace, the result may be empty or
`"Unknown"`, as the counterexample shows.) -/
theorem course_extractedby_normalization :
    (∀ caption, occursIn courseMarker caption = false →
      extract_course caption = "Unknown".data) ∧
    (∀ caption, occursIn extractedByMarker caption = false →
      extract_extracted_by caption = "Unknown".data) ∧
    (∀ p rest : List Char,
      (∀ j, j < p.length →
        courseMarker.isPrefixOf ((p ++ (courseMarker ++ rest)).drop j) = false) →
      (∃ c ∈ rest.takeWhile notNl, pyWs c = false) →
      extract_course (p ++ (courseMarker ++ rest)) =
        strip (rest.takeWhile notNl) ∧
      strip (rest.takeWhile notNl) ≠ []) ∧
    (∀ p rest : List Char,
      (∀ j, j < p.length →
        extractedByMarker.isPrefixOf
          ((p ++ (extractedByMarker ++ rest)).drop j) = false) →
      (∃ c ∈ rest.takeWhile notNl, pyWs c = false) →
      extract_extracted_by (p ++ (extractedByMarker ++ rest)) =
        strip (rest.takeWhile notNl) ∧
      strip (rest.takeWhile notNl) ≠ []) := by
  refine ⟨?_, ?_, ?_, ?_⟩
  · intro caption h
    unfold extract_course
    rw [reSearch_eq_none (noOcc_of_occursIn_false h)]
  · intro caption h
    unfold extract_extracted_by
    rw [reSearch_eq_none (noOcc_of_occursIn_false h)]
  · intro p rest hfirst hcontent
    have hsearch := reSearch_first_occurrence
      (show courseMarker ≠ [] by decide)
      (matchAfterMarker_of_content hcontent) p hfirst
    refine ⟨?_, strip_ne_nil hcontent⟩
    unfold extract_course
    rw [hsearch]
    exact strip_line_shift hcontent
  · intro p rest hfirst hcontent
    have hsearch := reSearch_first_occurrence
      (show extractedByMarker ≠ [] by decide)
      (matchAfterMarker_of_content hcontent) p hfirst
    refine ⟨?_, strip_ne_nil hcontent⟩
    unfold extract_extracted_by
    rw [hsearch]
    exact strip_line_shift hcontent

set_option maxRecDepth 20000 in
/-- Witness for C2: a marker-free caption normalizes both fields to
`"Unknown"`, and captions with content after the course/attribution
markers give the non-empty trimmed line remainders. -/
theorem course_extractedby_normalization_witness :
    extract_course ("hello".data) = "Unknown".data ∧
    extract_extracted_by ("hello".data) = "Unknown".data ∧
    (extract_course (([] : List Char) ++ (courseMarker ++ " CS201".data)) =
        strip (" CS201".data.takeWhile notNl) ∧
      strip (" CS201".data.takeWhile notNl) ≠ []) ∧
    (extract_extracted_by
        (([] : List Char) ++ (extractedByMarker ++ " alice".data)) =
        strip (" alice".data.takeWhile notNl) ∧
      strip (" alice".data.takeWhile notNl) ≠ []) :=
  ⟨course_extractedby_normalization.1 ("hello".data) (by decide),
   course_extractedby_normalization.2.1 ("hello".data) (by decide),
   course_extractedby_normalization.2.2.1 [] (" CS201".data)
      (fun j hj => absurd hj (Nat.not_lt_zero j)) (by decide),
   course_extractedby_normalization.2.2.2 [] (" alice".data)
      (fun j hj => absurd hj (Nat.not_lt_zero j)) (by decide)⟩

/-- C5 counterexample: `[exR1, exR2]` with equal timestamps and ascending
ids is a possible result of the unfiltered query (it is a permutation of
the table sorted by timestamp descending — the SQL fixes nothing more),
yet it is not in descending-id order on the tie. -/
theorem query_tie_order_counterexample :
    get_media_files_spec [exR1, exR2] none [exR1, exR2] = true ∧
    tsIdSortedDesc [exR1, exR2] = false := by decide

/-- C5 amended: every possible result of `get_media_files` is sorted by
timestamp descending (tie order among equal timestamps is NOT fixed by the
query), contains exactly the table's records for the unfiltered listing,
and exactly the records of the requested kind for the filtered listing. -/
theorem query_ordered_and_filtered :
    (∀ db out, get_media_files_spec db none out = true →
      tsSortedDesc out = true ∧ ∀ r, r ∈ out ↔ r ∈ db) ∧
    (∀ db kind out, get_media_files_spec db (some kind) out = true →
      tsSortedDesc out = true ∧
      ∀ r, r ∈ out ↔ (r ∈ db ∧ r.file_type = kind)) := by
  constructor
  · intro db out h
    rw [get_media_files_spec, Bool.and_eq_true] at h
    refine ⟨h.2, fun r => ?_⟩
    have hperm := List.isPerm_iff.mp h.1
    rw [← hperm.mem_iff]
    simp [List.mem_filter, rowMatches]
  · intro db kind out h
    rw [get_media_files_spec, Bool.and_eq_true] at h
    refine ⟨h.2, fun r => ?_⟩
    have hperm := List.isPerm_iff.mp h.1
    rw [← hperm.mem_iff, List.mem_filter]
    simp [rowMatches]

/-- Witness for C5: a one-row table, unfiltered and filtered to videos. -/
theorem query_ordered_and_filtered_witness :
    (tsSortedDesc [exR1] = true ∧ ∀ r, r ∈ [exR1] ↔ r ∈ [exR1]) ∧
    (tsSortedDesc [exR1] = true ∧
      ∀ r, r ∈ [exR1] ↔ (r ∈ [exR1, exPdfRow] ∧ r.file_type = "video".data)) :=
  ⟨query_ordered_and_filtered.1 [exR1] [exR1] (by decide),
   query_ordered_and_filtered.2 [exR1, exPdfRow] ("video".data) [exR1]
     (by decide)⟩

/-- C6: for every fetched record list and every course group the renderer
builds, the course block renders at most 5 video entry lines and at most 5
document entry lines (the `[:5]` slices), however many records exist. -/
theorem course_block_caps (channel : List Char) (db : List MediaFile)
    (pr : List Char × List MediaFile) (_h : pr ∈ organize_by_course db) :
    (course_video_entries channel pr.2).length ≤ 5 ∧
    (course_pdf_entries channel pr.2).length ≤ 5 := by
  constructor
  · unfold course_video_entries
    rw [List.length_map, List.length_take]
    exact Nat.min_le_left _ _
  · unfold course_pdf_entries
    rw [List.length_map, List.length_take]
    exact Nat.min_le_left _ _

set_option maxRecDepth 20000 in
/-- Witness for C6: the twelve-record store `exDb6` (six videos and six
pdfs in one course) renders with capped entry lists. -/
theorem course_block_caps_witness :
    (course_video_entries ("c".data) exDb6).length ≤ 5 ∧
    (course_pdf_entries ("c".data) exDb6).length ≤ 5 :=
  course_block_caps ("c".data) exDb6 ("C".data, exDb6) (by decide)

/-- C8: an empty store makes `post_summary` reply with the fixed non-empty
no-media text instead of a grouped body, and a store with no record of the
requested kind makes `get_videos` reply with the fixed no-videos text;
both functions are total, so neither condition is an error. -/
theorem empty_results_fixed_texts :
    (∀ (channel : List Char) out, get_media_files_spec [] none out = true →
      post_summary_message channel out = noMediaText ∧ noMediaText ≠ []) ∧
    (∀ (channel : List Char) db out,
      get_media_files_spec db (some ("video".data)) out = true →
      (∀ f ∈ db, f.file_type ≠ "video".data) →
      get_videos_message channel out = noVideosText ∧ noVideosText ≠ []) := by
  constructor
  · intro channel out h
    rw [get_media_files_spec, Bool.and_eq_true] at h
    have hperm := List.isPerm_iff.mp h.1
    have hout : out = [] := List.Perm.eq_nil (by simpa using hperm.symm)
    subst hout
    exact ⟨rfl, by decide⟩
  · intro channel db out h hnone
    rw [get_media_files_spec, Bool.and_eq_true] at h
    have hfil : db.filter (rowMatches (some ("video".data))) = [] := by
      rw [List.filter_eq_nil_iff]
      intro f hf
      simp only [rowMatches, beq_iff_eq]
      exact hnone f hf
    have hperm := List.isPerm_iff.mp h.1
    rw [hfil] at hperm
    have hout : out = [] := List.Perm.eq_nil hperm.symm
    subst hout
    exact ⟨rfl, by decide⟩

/-- Witness for C8: the empty store and a pdf-only store. -/
theorem empty_results_fixed_texts_witness :
    (post_summary_message ("c".data) [] = noMediaText ∧ noMediaText ≠ []) ∧
    (get_videos_message ("c".data) [] = noVideosText ∧ noVideosText ≠ []) :=
  ⟨empty_results_fixed_texts.1 ("c".data) [] (by decide),
   empty_results_fixed_texts.2 ("c".data) [exPdfRow] [] (by decide)
     (by decide)⟩

theorem addToCourse_map_fst (acc : List (List Char × List MediaFile))
    (f : MediaFile) :
    (addToCourse acc f).map Prod.fst =
      if f.course ∈ acc.map Prod.fst then acc.map Prod.fst
      else acc.map Prod.fst ++ [f.course] := by
  unfold addToCourse
  by_cases hmem : f.course ∈ acc.map Prod.fst
  · rw [if_pos hmem]
    have hany : acc.any (fun p => p.1 == f.course) = true := by
      rcases List.mem_map.mp hmem with ⟨p, hp, hfst⟩
      exact List.any_eq_true.mpr ⟨p, hp, by simp [hfst]⟩
    rw [if_pos hany, List.map_map]
    apply List.map_congr_left
    intro p _
    simp only [Function.comp]
    split <;> rfl
  · rw [if_neg hmem]
    have hany : acc.any (fun p => p.1 == f.course) = false := by
      rcases hb : acc.any (fun p => p.1 == f.course) with _ | _
      · rfl
      · exfalso
        rcases List.any_eq_true.mp hb with ⟨p, hp, hbeq⟩
        exact hmem (List.mem_map.mpr ⟨p, hp, beq_iff_eq.mp hbeq⟩)
    rw [if_neg (by simp [hany]), List.map_append]
    rfl

theorem organize_map_fst_aux :
    ∀ (db : List MediaFile) (acc : List (List Char × List MediaFile)),
      (db.foldl addToCourse acc).map Prod.fst =
        db.foldl (fun a f => if f.course ∈ a then a else a ++ [f.course])
          (acc.map Prod.fst) := by
  intro db
  induction db with
  | nil => intro acc; rfl
  | cons f fs ih =>
    intro acc
    simp only [List.foldl_cons]
    rw [ih, addToCourse_map_fst]

/-- C7: the summary groups records by course in first-seen order, and a
course block emits the Videos sub-list exactly when the course has a video
record, the PDFs sub-list exactly when it has a document record. -/
theorem grouping_first_seen_and_subheaders :
    (∀ db : List MediaFile,
      (organize_by_course db).map Prod.fst =
        firstSeenOrder (db.map MediaFile.course)) ∧
    (∀ (channel : List Char) (files : List MediaFile),
      (video_section channel files ≠ [] ↔
        ∃ f ∈ files, f.file_type = "video".data) ∧
      (pdf_section channel files ≠ [] ↔
        ∃ f ∈ files, f.file_type = "pdf".data)) := by
  constructor
  · intro db
    unfold organize_by_course firstSeenOrder
    rw [List.foldl_map]
    exact organize_map_fst_aux db []
  · intro channel files
    constructor
    · unfold video_section
      rcases he : (files.filter isVideoRow).isEmpty with _ | _
      · rw [if_neg (by simp [he])]
        constructor
        · intro _
          have hne : files.filter isVideoRow ≠ [] := by
            intro hnil
            rw [hnil] at he
            exact absurd he (by simp)
          rcases List.exists_mem_of_ne_nil _ hne with ⟨f, hf⟩
          rcases List.mem_filter.mp hf with ⟨hmem, hvid⟩
          exact ⟨f, hmem, by simpa [isVideoRow] using hvid⟩
        · intro _
          intro hnil
          have : videosSubHeader = [] := by
            rcases hh : videosSubHeader with _ | _
            · rfl
            · rw [hh] at hnil; exact absurd hnil (by simp)
          exact absurd this (by decide)
      · rw [if_pos (by simp [he])]
        constructor
        · intro hne
          exact absurd rfl hne
        · rintro ⟨f, hf, hft⟩
          have hmem : f ∈ files.filter isVideoRow :=
            List.mem_filter.mpr ⟨hf, by simp [isVideoRow, hft]⟩
          rw [List.isEmpty_iff.mp he] at hmem
          exact absurd hmem (by simp)
    · unfold pdf_section
      rcases he : (files.filter isPdfRow).isEmpty with _ | _
      · rw [if_neg (by simp [he])]
        constructor
        · intro _
          have hne : files.filter isPdfRow ≠ [] := by
            intro hnil
            rw [hnil] at he
            exact absurd he (by simp)
          rcases List.exists_mem_of_ne_nil _ hne with ⟨f, hf⟩
          rcases List.mem_filter.mp hf with ⟨hmem, hpdf⟩
          exact ⟨f, hmem, by simpa [isPdfRow] using hpdf⟩
        · intro _
          intro hnil
          have : pdfsSubHeader = [] := by
            rcases hh : pdfsSubHeader with _ | _
            · rfl
            · rw [hh] at hnil; exact absurd hnil (by simp)
          exact absurd this (by decide)
      · rw [if_pos (by simp [he])]
        constructor
        · intro hne
          exact absurd rfl hne
        · rintro ⟨f, hf, hft⟩
          have hmem : f ∈ files.filter isPdfRow :=
            List.mem_filter.mpr ⟨hf, by simp [isPdfRow, hft]⟩
          rw [List.isEmpty_iff.mp he] at hmem
          exact absurd hmem (by simp)

/-- C9 counterexample: the spec's example caption, taken as the exact
string `"Title » Intro to Graphs\nCourse : CS201\nExtracted By » alice"`,
contains none of the code's marker glyph sequences, so processing a
video-payload message with that caption stores nothing at all. -/
theorem example_caption_no_record :
    process_channel_message
      { id := 7, video := some ("vf".data), document := none
        caption := some claimCaption9 } = none := by
  decide

set_option maxRecDepth 100000 in
/-- C9 amended: with the code's actual marker strings substituted for the
plain `Title »` / `Course :` / `Extracted By »` labels, processing the
video-payload message yields exactly the claimed record: file type
`"video"`, title `"Intro to Graphs"`, course `"CS201"`, extractor
`"alice"`. -/
theorem example_caption_record_with_markers :
    process_channel_message
      { id := 7, video := some ("vf".data), document := none
        caption := some amendedCaption9 } =
    some { message_id := 7, file_type := "video".data
           title := "Intro to Graphs".data, course := "CS201".data
           extracted_by := "alice".data, file_id := "vf".data } := by
  decide

end Indexer
